import Mathlib

/-!
Verification of the light-curve conditioning and anomaly-reporting pipeline
implemented in `src/tasks/01_project_aegis/main.py`.

The script has three stages:
* an acquisition loop over `ANCHOR_STARS` (`fetch_and_process`, outer loop),
* a per-series conditioning pipeline (`remove_nans`, `remove_outliers`,
  `flatten`, `normalize`, duration guard, `bin`, truncate/pad to
  `POINTS_PER_CURVE`, `np.nan_to_num(·, nan=1.0)`),
* a scoring and reporting stage (`run_ai_scan`).

External library calls (lightkurve's `remove_outliers`/`flatten`/`normalize`/
`bin`, the archive query + download, sklearn's IsolationForest) are modelled
as abstract collaborators (`Lib`, `Acq`, `Scorer`); code the script itself
contains (control flow, length reconciliation, `nan_to_num` semantics, the
filename scheme) is embedded concretely. Python exceptions are modelled as
`Except String`; the script's bare `try`/`except` handlers turn every error
into a drop (`Option`). IEEE-754 special values are modelled by the `Val`
type; finite doubles are represented as rationals.
-/

namespace ProjectAegis

/-- A floating-point cell of a flux array: a finite number, NaN, or ±infinity. -/
inductive Val where
  | num (q : ℚ)
  | nan
  | inf
  | ninf
deriving DecidableEq

/-- A value is valid when it is a finite number (not NaN, not ±inf). -/
def Val.isValid : Val → Bool
  | .num _ => true
  | _ => false

/-- Configured constant `POINTS_PER_CURVE = 500` (main.py line 11). -/
def POINTS_PER_CURVE : ℕ := 500

/-- Configured constant `TARGET_TOTAL_STARS = 500` (main.py line 12). -/
def TARGET_TOTAL_STARS : ℕ := 500

/-- Configured constant `OUTLIER_FRACTION = 0.02` (main.py line 13). -/
def OUTLIER_FRACTION : ℚ := 2 / 100

/-- The anchor list of main.py lines 17-21, in source order. -/
def ANCHOR_STARS : List String :=
  ["TIC 471016584", "TIC 233681149", "TIC 261136679"]

/-- Largest finite IEEE-754 double, `np.finfo(np.float64).max = (2^53-1)*2^971`:
the value `np.nan_to_num` substitutes for `+inf` by default. -/
def FLOAT64_MAX : ℚ := (2 ^ 53 - 1) * 2 ^ 971

/-- One cadence of a light curve: a timestamp and a flux value. -/
structure Sample where
  time : ℚ
  flux : Val
deriving DecidableEq

/-- A light curve: an ordered list of samples. -/
structure LC where
  samples : List Sample
deriving DecidableEq

/-- The time column of a light curve. -/
def LC.times (lc : LC) : List ℚ := lc.samples.map Sample.time

/-- The flux column of a light curve. -/
def LC.fluxes (lc : LC) : List Val := lc.samples.map Sample.flux

/-- `lc.remove_nans()`: drop cadences whose flux is NaN (main.py line 72). -/
def remove_nans (lc : LC) : LC :=
  ⟨lc.samples.filter (fun s => decide (s.flux ≠ Val.nan))⟩

/-- The lightkurve operations the script calls that are external library code:
`remove_outliers(sigma)`, `flatten(window_length)`, `normalize()`,
`bin(time_bin_size)`.  Each may raise (modelled as `Except.error`). -/
structure Lib where
  remove_outliers : ℚ → LC → Except String LC
  flatten : ℕ → LC → Except String LC
  normalize : LC → Except String LC
  bin : ℚ → LC → Except String LC

/-- `lc.time.max()`: maximum of the time column; raises on an empty array
(modelled as `none`). -/
def timeMaxQ : List ℚ → Option ℚ
  | [] => none
  | t :: ts => some (ts.foldl max t)

/-- `lc.time.min()`: minimum of the time column; raises on an empty array. -/
def timeMinQ : List ℚ → Option ℚ
  | [] => none
  | t :: ts => some (ts.foldl min t)

/-- Length reconciliation of main.py lines 84-87: truncate to the first
`POINTS_PER_CURVE` entries when longer, pad the tail with `1.0`
(`np.pad(..., constant_values=1.0)`) when shorter, else unchanged. -/
def reconcile (flux : List Val) : List Val :=
  if POINTS_PER_CURVE < flux.length then flux.take POINTS_PER_CURVE
  else if flux.length < POINTS_PER_CURVE then
    flux ++ List.replicate (POINTS_PER_CURVE - flux.length) (Val.num 1)
  else flux

/-- Pointwise behaviour of `np.nan_to_num(flux, nan=1.0)` (main.py line 89):
NaN becomes `1.0`; `+inf`/`-inf` become the numpy defaults `±FLOAT64_MAX`
(the call does not override `posinf`/`neginf`); finite values are unchanged. -/
def nanToNum1 (v : Val) : Val :=
  match v with
  | .nan => .num 1
  | .inf => .num FLOAT64_MAX
  | .ninf => .num (-FLOAT64_MAX)
  | .num q => .num q

/-- `np.nan_to_num(flux, nan=1.0)` applied to a flux array. -/
def nan_to_num (flux : List Val) : List Val := flux.map nanToNum1

/-- The conditioning pipeline body of main.py lines 71-89 for a single light
curve: clean, detrend, normalize, guard on the time span, bin, reconcile the
length, replace NaNs.  Any library error or the degenerate-span guard yields
`Except.error` (in the script: an exception caught by the per-series handler,
or the explicit `continue`). -/
def conditionLC (lib : Lib) (lc0 : LC) : Except String (List Val) :=
  match lib.remove_outliers (7 / 2) (remove_nans lc0) with
  | .error e => .error e
  | .ok lc2 =>
    match lib.flatten 101 lc2 with
    | .error e => .error e
    | .ok lc3 =>
      match lib.normalize lc3 with
      | .error e => .error e
      | .ok lc4 =>
        match timeMaxQ lc4.times, timeMinQ lc4.times with
        | none, _ => .error "max of empty time array"
        | some _, none => .error "min of empty time array"
        | some tmax, some tmin =>
          if tmax - tmin ≤ 0 then .error "degenerate time span"
          else
            match lib.bin ((tmax - tmin) / (POINTS_PER_CURVE : ℚ)) lc4 with
            | .error e => .error e
            | .ok lc5 => .ok (nan_to_num (reconcile lc5.fluxes))

/-- One downloaded entry of a batch: the light curve (`None` possible,
main.py line 64) and the result of the `search.table[i]['target_name']`
lookup for the same index (`none` when that lookup raises). -/
structure BatchItem where
  lcOpt : Option LC
  nameLookup : Option String

/-- The synthesized identifier `f"Star_{i}"` (main.py line 69). -/
def fallbackName (i : ℕ) : String := "Star_" ++ toString i

/-- The per-series loop body of main.py lines 62-95 at enumerate-index `i`:
skip a `None` curve, resolve the name (falling back to `Star_{i}` when the
table lookup raises), condition the curve, and drop the series on any
conditioning failure (the inner bare `except: continue`). -/
def processItem (lib : Lib) (i : ℕ) (item : BatchItem) :
    Option (List Val × String) :=
  match item.lcOpt with
  | none => none
  | some lc =>
    let name :=
      match item.nameLookup with
      | some n => n
      | none => fallbackName i
    match conditionLC lib lc with
    | .ok flux => some (flux, name)
    | .error _ => none

/-- The accumulator state of `fetch_and_process`: the parallel lists
`all_data` and `all_ids` (main.py lines 31-32). -/
structure PState where
  all_data : List (List Val)
  all_ids : List String
deriving DecidableEq

/-- Effect of one iteration of the per-series loop on the accumulator:
append both the vector and the identifier on success, leave the state
unchanged on a drop (main.py lines 91-92, 94-95). -/
def stepItem (lib : Lib) (st : PState) (i : ℕ) (item : BatchItem) : PState :=
  match processItem lib i item with
  | none => st
  | some (flux, name) => ⟨st.all_data ++ [flux], st.all_ids ++ [name]⟩

/-- The `for i, lc in enumerate(lcs)` loop over one downloaded batch. -/
def processBatch (lib : Lib) (st : PState) (items : List BatchItem) : PState :=
  items.enum.foldl (fun s p => stepItem lib s p.1 p.2) st

/-- The successful (vector, identifier) results a batch contributes, in
enumerate order. -/
def resultsOf (lib : Lib) (items : List BatchItem) : List (List Val × String) :=
  items.enum.filterMap (fun p => processItem lib p.1 p.2)

/-- The acquisition collaborator: `lk.search_lightcurve(anchor, radius=3.0,
limit=needed, author="SPOC")` followed by `download_all()`, returning one
`BatchItem` per downloaded curve; a raised exception is `Except.error` and an
empty search result is `.ok []`. -/
structure Acq where
  query : String → ℕ → Except String (List BatchItem)

/-- The anchor loop of main.py lines 36-101: break once
`TARGET_TOTAL_STARS` series are accumulated, otherwise query the next anchor
with `limit = TARGET_TOTAL_STARS - len(all_data)`; an error or an empty batch
contributes nothing (`continue`) and the next anchor is attempted.  Besides
the final state the model returns the ghost trace of
(anchor, requested-count) pairs for the anchors actually visited. -/
def fetchLoop (lib : Lib) (acq : Acq) :
    List String → PState → PState × List (String × ℕ)
  | [], st => (st, [])
  | anchor :: rest, st =>
    if TARGET_TOTAL_STARS ≤ st.all_data.length then (st, [])
    else
      let needed := TARGET_TOTAL_STARS - st.all_data.length
      let st1 :=
        match acq.query anchor needed with
        | .error _ => st
        | .ok items => processBatch lib st items
      let r := fetchLoop lib acq rest st1
      (r.1, (anchor, needed) :: r.2)

/-- `fetch_and_process()` (main.py lines 30-103): run the anchor loop over
`ANCHOR_STARS` starting from empty accumulators. -/
def fetch_and_process (lib : Lib) (acq : Acq) : PState × List (String × ℕ) :=
  fetchLoop lib acq ANCHOR_STARS ⟨[], []⟩

/-- The scoring collaborator: one batch call standing for
`clf.fit(X); clf.predict(X); clf.decision_function(X)`, returning the
(label, score) pair for each row (label `-1` means anomalous). -/
structure Scorer where
  run : List (List Val) → List (Int × ℚ)

/-- One rendering action of the reporting loop: which row was drawn, its
1-based rank, its identifier and score, and the artifact path. -/
structure RenderEvent where
  idx : ℕ
  rank1 : ℕ
  star_id : String
  score : ℚ
  filename : String
deriving DecidableEq

/-- Observable outcome of `run_ai_scan`: how many times the scoring
collaborator was invoked, the reported candidate count, and the rendering
actions in execution order. -/
structure ScanResult where
  scoreCalls : ℕ
  detected : ℕ
  renders : List RenderEvent
deriving DecidableEq

/-- `star_id.replace(" ", "_")` (main.py line 134): each space becomes an
underscore; every other character is kept as is. -/
def sanitize (s : String) : String :=
  ⟨s.data.map (fun c => if c = ' ' then '_' else c)⟩

/-- The artifact file name `f"RANK_{rank+1}_{safe_id}.png"` (main.py
line 135). -/
def artifactName (rank1 : ℕ) (safe_id : String) : String :=
  "RANK_" ++ toString rank1 ++ "_" ++ safe_id ++ ".png"

/-- `os.path.join(save_path, name)` for a POSIX path. -/
def joinPath (dir nm : String) : String := dir ++ "/" ++ nm

/-- `np.where(predictions == -1)[0]` zipped with the matching scores
(main.py lines 118-119): the (row-index, score) pairs of the rows labeled
anomalous, in ascending row order. -/
def anomaliesOf (results : List (Int × ℚ)) : List (ℕ × ℚ) :=
  results.enum.filterMap (fun p => if p.2.1 = -1 then some (p.1, p.2.2) else none)

/-- The comparison Python's `sorted(..., key=lambda x: x[1])` sorts by. -/
def scoreLe (a b : ℕ × ℚ) : Bool := decide (a.2 ≤ b.2)

/-- The rendering action for the sorted anomaly at 0-based position `p.1`
(main.py lines 123-139): rank is `p.1 + 1`, the identifier is `ids[idx]`,
and the artifact path joins the output directory with the `RANK_`-prefixed
name built from the sanitized identifier. -/
def renderOf (ids : List String) (save_path : String) (p : ℕ × (ℕ × ℚ)) :
    RenderEvent :=
  let star_id := ids.getD p.2.1 ""
  ⟨p.2.1, p.1 + 1, star_id, p.2.2,
    joinPath save_path (artifactName (p.1 + 1) (sanitize star_id))⟩

/-- `run_ai_scan(X, ids, save_path)` (main.py lines 105-139): on an empty
matrix return immediately with no scoring call and no rendering; otherwise
score once, select the rows labeled `-1`, sort them by score ascending
(Python's stable `sorted`, modelled by the stable `List.mergeSort`), and
render one artifact per selected row in that order. -/
def run_ai_scan (scorer : Scorer) (X : List (List Val)) (ids : List String)
    (save_path : String) : ScanResult :=
  if X.length = 0 then ⟨0, 0, []⟩
  else
    let scored_anomalies := (anomaliesOf (scorer.run X)).mergeSort scoreLe
    ⟨1, scored_anomalies.length, scored_anomalies.enum.map (renderOf ids save_path)⟩

/-! ## Shared helper lemmas -/

/-- Every entry of `nan_to_num` output is a finite number. -/
theorem nan_to_num_valid (flux : List Val) :
    ∀ v ∈ nan_to_num flux, v.isValid = true := by
  intro v hv
  rcases List.mem_map.mp hv with ⟨w, _, rfl⟩
  cases w <;> rfl

/-- `nan_to_num` preserves length. -/
theorem nan_to_num_length (flux : List Val) :
    (nan_to_num flux).length = flux.length :=
  List.length_map flux nanToNum1

/-- `reconcile` always returns exactly `POINTS_PER_CURVE` entries. -/
theorem reconcile_length (flux : List Val) :
    (reconcile flux).length = POINTS_PER_CURVE := by
  unfold reconcile
  split
  · simp; omega
  · split
    · simp [List.length_append, List.length_replicate]; omega
    · omega

/-- A successfully conditioned vector is `nan_to_num (reconcile f)` for the
flux column `f` of the binned curve. -/
theorem conditionLC_ok_shape (lib : Lib) (lc0 : LC) (flux : List Val)
    (h : conditionLC lib lc0 = .ok flux) :
    ∃ f : List Val, flux = nan_to_num (reconcile f) := by
  unfold conditionLC at h
  repeat' split at h
  all_goals first
    | exact ⟨_, by injection h with h; exact h.symm⟩
    | exact absurd h (by simp)

/-- The sample-count facts the script relies on about the external cleaning
steps: none of `remove_outliers`, `flatten`, `normalize` invents new cadences
(each returns at most as many samples as it was given).  `remove_outliers`
only deletes rows, and `flatten`/`normalize` transform flux values in place. -/
structure LibShrinks (lib : Lib) : Prop where
  ro : ∀ s lc out, lib.remove_outliers s lc = .ok out →
        out.samples.length ≤ lc.samples.length
  fl : ∀ w lc out, lib.flatten w lc = .ok out →
        out.samples.length ≤ lc.samples.length
  nm : ∀ lc out, lib.normalize lc = .ok out →
        out.samples.length ≤ lc.samples.length

/-- A series with at most one sample never conditions successfully: with the
cleaning steps not inventing samples, either the time-column maximum raises
(empty) or the span is `0 ≤ 0` and the explicit guard drops the series. -/
theorem conditionLC_degenerate (lib : Lib) (hlib : LibShrinks lib) (lc : LC)
    (hn : lc.samples.length ≤ 1) : ∃ e, conditionLC lib lc = .error e := by
  have h1 : (remove_nans lc).samples.length ≤ 1 :=
    le_trans (List.length_filter_le _ _) hn
  unfold conditionLC
  cases h2 : lib.remove_outliers (7 / 2) (remove_nans lc) with
  | error e => exact ⟨e, by simp [h2]⟩
  | ok lc2 =>
    have hl2 : lc2.samples.length ≤ 1 := le_trans (hlib.ro _ _ _ h2) h1
    cases h3 : lib.flatten 101 lc2 with
    | error e => exact ⟨e, by simp [h2, h3]⟩
    | ok lc3 =>
      have hl3 : lc3.samples.length ≤ 1 := le_trans (hlib.fl _ _ _ h3) hl2
      cases h4 : lib.normalize lc3 with
      | error e => exact ⟨e, by simp [h2, h3, h4]⟩
      | ok lc4 =>
        have hl4 : lc4.samples.length ≤ 1 := le_trans (hlib.nm _ _ h4) hl3
        rcases hc : lc4.samples with _ | ⟨s, rest⟩
        · exact ⟨"max of empty time array",
            by simp [h2, h3, h4, LC.times, hc, timeMaxQ]⟩
        · rcases rest with _ | ⟨s2, rest2⟩
          · exact ⟨"degenerate time span",
              by simp [h2, h3, h4, LC.times, hc, timeMaxQ, timeMinQ]⟩
          · rw [hc] at hl4
            simp at hl4

/-- Unrolling the per-batch fold: the final accumulator is the starting one
with the successful results appended, independently of where failures sit. -/
theorem foldl_stepItem (lib : Lib) (l : List (ℕ × BatchItem)) :
    ∀ st : PState,
      l.foldl (fun s p => stepItem lib s p.1 p.2) st =
        ⟨st.all_data ++ (l.filterMap (fun p => processItem lib p.1 p.2)).map Prod.fst,
         st.all_ids ++ (l.filterMap (fun p => processItem lib p.1 p.2)).map Prod.snd⟩ := by
  induction l with
  | nil => intro st; simp
  | cons p l ih =>
    intro st
    simp only [List.foldl_cons, List.filterMap_cons]
    cases hp : processItem lib p.1 p.2 with
    | none => rw [ih]; simp [stepItem, hp]
    | some r => rw [ih]; simp [stepItem, hp, List.append_assoc]

/-- `processBatch` appends exactly the successful per-item results. -/
theorem processBatch_eq (lib : Lib) (st : PState) (items : List BatchItem) :
    processBatch lib st items =
      ⟨st.all_data ++ (resultsOf lib items).map Prod.fst,
       st.all_ids ++ (resultsOf lib items).map Prod.snd⟩ := by
  simpa [processBatch, resultsOf] using foldl_stepItem lib items.enum st

/-- One loop step keeps `all_data` and `all_ids` the same length. -/
theorem stepItem_lengths (lib : Lib) (st : PState) (i : ℕ) (item : BatchItem)
    (h : st.all_data.length = st.all_ids.length) :
    (stepItem lib st i item).all_data.length =
      (stepItem lib st i item).all_ids.length := by
  unfold stepItem
  cases hp : processItem lib i item with
  | none => simpa using h
  | some r => simp [h]

/-- A whole batch keeps `all_data` and `all_ids` the same length. -/
theorem processBatch_lengths (lib : Lib) (st : PState) (items : List BatchItem)
    (h : st.all_data.length = st.all_ids.length) :
    (processBatch lib st items).all_data.length =
      (processBatch lib st items).all_ids.length := by
  simp [processBatch_eq, h]

/-- The anchor loop keeps `all_data` and `all_ids` the same length. -/
theorem fetchLoop_lengths (lib : Lib) (acq : Acq) :
    ∀ (anchors : List String) (st : PState),
      st.all_data.length = st.all_ids.length →
      (fetchLoop lib acq anchors st).1.all_data.length =
        (fetchLoop lib acq anchors st).1.all_ids.length := by
  intro anchors
  induction anchors with
  | nil => intro st h; simpa [fetchLoop] using h
  | cons a rest ih =>
    intro st h
    by_cases hc : TARGET_TOTAL_STARS ≤ st.all_data.length
    · simpa [fetchLoop, hc] using h
    · simp only [fetchLoop, if_neg hc]
      cases hq : acq.query a (TARGET_TOTAL_STARS - st.all_data.length) with
      | error e => simpa [hq] using ih st h
      | ok items =>
        simpa [hq] using ih (processBatch lib st items)
          (processBatch_lengths lib st items h)

/-! ## Concrete collaborators used by the witnesses -/

/-- A benign library whose cleaning steps leave the curve unchanged. -/
def idLib : Lib :=
  ⟨fun _ lc => .ok lc, fun _ lc => .ok lc, fun lc => .ok lc, fun _ lc => .ok lc⟩

/-- The identity library does not invent samples. -/
theorem idLib_shrinks : LibShrinks idLib := by
  refine ⟨?_, ?_, ?_⟩
  · intro s lc out h
    injection h with h
    subst h
    exact le_rfl
  · intro w lc out h
    injection h with h
    subst h
    exact le_rfl
  · intro lc out h
    injection h with h
    subst h
    exact le_rfl

/-- A well-formed two-sample curve spanning time `[0, 1]`. -/
def demoLC : LC := ⟨[⟨0, Val.num 1⟩, ⟨1, Val.num 1⟩]⟩

/-- Conditioning the demo curve with the identity library succeeds and pads
to 500 entries of the baseline value. -/
theorem conditionLC_demo :
    conditionLC idLib demoLC = .ok (List.replicate 500 (Val.num 1)) := by
  have h1 : remove_nans demoLC = demoLC := rfl
  have hmax : timeMaxQ (LC.times demoLC) = some 1 := by
    show some (max 0 1) = some 1
    rw [max_eq_right (by norm_num)]
  have hmin : timeMinQ (LC.times demoLC) = some 0 := by
    show some (min 0 1) = some 0
    rw [min_eq_left (by norm_num)]
  have hpad : nan_to_num (reconcile (LC.fluxes demoLC)) =
      List.replicate 500 (Val.num 1) := by
    have hf : LC.fluxes demoLC = [Val.num 1, Val.num 1] := rfl
    rw [hf]
    have h2 : reconcile [Val.num 1, Val.num 1] =
        [Val.num 1, Val.num 1] ++ List.replicate 498 (Val.num 1) := by
      unfold reconcile
      norm_num [POINTS_PER_CURVE]
    rw [h2]
    simp only [nan_to_num, List.map_append, List.map_replicate]
    rw [show (500 : ℕ) = 2 + 498 from rfl, List.replicate_add]
    rfl
  unfold conditionLC
  simp only [idLib, h1, hmax, hmin]
  norm_num [hpad]

/-- An acquisition collaborator for the witnesses: every query downloads one
well-formed curve whose target-name lookup fails. -/
def demoAcq : Acq := ⟨fun _ _ => .ok [⟨some demoLC, none⟩]⟩

/-- A degenerate curve with a single sample (time span 0). -/
def oneSampleLC : LC := ⟨[⟨5, Val.num 1⟩]⟩

/-! ## Claims -/

/-- C1: every series that survives conditioning yields a feature vector of
length exactly `POINTS_PER_CURVE = 500` all of whose entries are finite
numbers (no NaN, no ±inf) at the moment it is appended to the matrix. -/
theorem conditioned_vector_wellformed (lib : Lib) (lc : LC) (flux : List Val)
    (h : conditionLC lib lc = .ok flux) :
    flux.length = POINTS_PER_CURVE ∧ ∀ v ∈ flux, v.isValid = true := by
  obtain ⟨f, rfl⟩ := conditionLC_ok_shape lib lc flux h
  exact ⟨by rw [nan_to_num_length, reconcile_length], nan_to_num_valid _⟩

/-- Witness for C1: the demo curve conditions successfully and its vector is
well-formed. -/
theorem conditioned_vector_wellformed_witness :
    conditionLC idLib demoLC = .ok (List.replicate 500 (Val.num 1)) ∧
    ((List.replicate 500 (Val.num 1)).length = POINTS_PER_CURVE ∧
      ∀ v ∈ List.replicate 500 (Val.num 1), v.isValid = true) :=
  ⟨conditionLC_demo,
    conditioned_vector_wellformed idLib demoLC _ conditionLC_demo⟩

/-- C2: length reconciliation handles its three branches exactly: a longer
resampled flux list is truncated to its first `POINTS_PER_CURVE` bins, a
shorter one is padded at the tail with `1.0` up to `POINTS_PER_CURVE`, and
one of exactly that length is unchanged. -/
theorem reconcile_branches (flux : List Val) :
    (POINTS_PER_CURVE < flux.length →
        reconcile flux = flux.take POINTS_PER_CURVE ∧
        (reconcile flux).length = POINTS_PER_CURVE) ∧
    (flux.length < POINTS_PER_CURVE →
        reconcile flux =
          flux ++ List.replicate (POINTS_PER_CURVE - flux.length) (Val.num 1) ∧
        (reconcile flux).length = POINTS_PER_CURVE) ∧
    (flux.length = POINTS_PER_CURVE → reconcile flux = flux) := by
  refine ⟨fun h => ⟨?_, reconcile_length flux⟩,
    fun h => ⟨?_, reconcile_length flux⟩, fun h => ?_⟩
  · unfold reconcile; rw [if_pos h]
  · unfold reconcile; rw [if_neg (by omega), if_pos h]
  · unfold reconcile; rw [if_neg (by omega), if_neg (by omega)]

/-- Witness for C2: all three branches at concrete lists of length 501, 499
and 500. -/
theorem reconcile_branches_witness :
    (reconcile (List.replicate 501 (Val.num 2)) =
        (List.replicate 501 (Val.num 2)).take POINTS_PER_CURVE ∧
      (reconcile (List.replicate 501 (Val.num 2))).length = POINTS_PER_CURVE) ∧
    (reconcile (List.replicate 499 (Val.num 2)) =
        List.replicate 499 (Val.num 2) ++
          List.replicate (POINTS_PER_CURVE - (List.replicate 499 (Val.num 2)).length)
            (Val.num 1) ∧
      (reconcile (List.replicate 499 (Val.num 2))).length = POINTS_PER_CURVE) ∧
    reconcile (List.replicate 500 (Val.num 2)) = List.replicate 500 (Val.num 2) :=
  ⟨(reconcile_branches _).1 (by norm_num [POINTS_PER_CURVE]),
   (reconcile_branches _).2.1 (by norm_num [POINTS_PER_CURVE]),
   (reconcile_branches _).2.2 (by norm_num [POINTS_PER_CURVE])⟩

/-- C3 counterexample: `np.nan_to_num(flux, nan=1.0)` does not replace
infinities with `1.0`: an input `+inf` cell (an invalid value) becomes the
numpy default `FLOAT64_MAX`, so the output differs from the claimed
`[1.0]`. -/
theorem nan_to_num_infinity_counterexample :
    Val.inf.isValid = false ∧
    nan_to_num [Val.inf] = [Val.num FLOAT64_MAX] ∧
    nan_to_num [Val.inf] ≠ [Val.num 1] := by
  refine ⟨rfl, rfl, ?_⟩
  intro h
  simp only [nan_to_num, List.map_cons, List.map_nil, nanToNum1,
    List.cons.injEq, and_true, Val.num.injEq] at h
  norm_num [FLOAT64_MAX] at h

/-- C3 amended: in the final conditioning step, NaN cells are replaced with
`1.0`; `+inf` and `-inf` cells are replaced with the numpy defaults
`±FLOAT64_MAX` (not `1.0`); finite cells are unchanged; the output has the
same length and contains only finite values. -/
theorem nan_to_num_replacement (flux : List Val) :
    (nan_to_num flux).length = flux.length ∧
    (∀ v ∈ nan_to_num flux, v.isValid = true) ∧
    (∀ i : ℕ, flux[i]? = some Val.nan →
        (nan_to_num flux)[i]? = some (Val.num 1)) ∧
    (∀ i : ℕ, flux[i]? = some Val.inf →
        (nan_to_num flux)[i]? = some (Val.num FLOAT64_MAX)) ∧
    (∀ i : ℕ, flux[i]? = some Val.ninf →
        (nan_to_num flux)[i]? = some (Val.num (-FLOAT64_MAX))) ∧
    (∀ (i : ℕ) (q : ℚ), flux[i]? = some (Val.num q) →
        (nan_to_num flux)[i]? = some (Val.num q)) := by
  refine ⟨nan_to_num_length flux, nan_to_num_valid flux,
    fun i h => ?_, fun i h => ?_, fun i h => ?_, fun i q h => ?_⟩ <;>
    simp [nan_to_num, List.getElem?_map, h, nanToNum1]

/-- Witness for C3's amended statement at a concrete flux list. -/
theorem nan_to_num_replacement_witness :
    (nan_to_num [Val.nan, Val.num 3])[0]? = some (Val.num 1) ∧
    (nan_to_num [Val.nan, Val.num 3])[1]? = some (Val.num 3) :=
  ⟨(nan_to_num_replacement [Val.nan, Val.num 3]).2.2.1 0 rfl,
   (nan_to_num_replacement [Val.nan, Val.num 3]).2.2.2.2.2 1 3 rfl⟩

/-- C4: conditioning a series never propagates an exception: a degenerate
series (at most one sample, hence span ≤ 0 or an empty time column) is
dropped with no vector produced, and a batch's processing continues past
every dropped series, appending exactly the successful results.  The
hypothesis states that the external cleaning steps do not invent samples. -/
theorem conditioning_drop_policy (lib : Lib) (hlib : LibShrinks lib) :
    (∀ (lc : LC), lc.samples.length ≤ 1 → ∀ (i : ℕ) (nm : Option String),
        processItem lib i ⟨some lc, nm⟩ = none) ∧
    (∀ (st : PState) (items : List BatchItem),
        processBatch lib st items =
          ⟨st.all_data ++ (resultsOf lib items).map Prod.fst,
           st.all_ids ++ (resultsOf lib items).map Prod.snd⟩) := by
  constructor
  · intro lc hn i nm
    obtain ⟨e, he⟩ := conditionLC_degenerate lib hlib lc hn
    simp [processItem, he]
  · intro st items
    exact processBatch_eq lib st items

/-- Witness for C4: a one-sample curve is dropped, and a singleton batch is
appended per the fold characterization. -/
theorem conditioning_drop_policy_witness :
    processItem idLib 0 ⟨some oneSampleLC, some "TIC X"⟩ = none ∧
    processBatch idLib ⟨[], []⟩ [⟨some demoLC, some "TIC Y"⟩] =
      ⟨[] ++ (resultsOf idLib [⟨some demoLC, some "TIC Y"⟩]).map Prod.fst,
       [] ++ (resultsOf idLib [⟨some demoLC, some "TIC Y"⟩]).map Prod.snd⟩ :=
  ⟨(conditioning_drop_policy idLib idLib_shrinks).1 oneSampleLC (by decide) 0
      (some "TIC X"),
   (conditioning_drop_policy idLib idLib_shrinks).2 ⟨[], []⟩ _⟩

/-- C5: the feature matrix and the identifier list have equal length at every
point of the run: preserved by each series step, by each batch, by the anchor
loop, and holding for the final state of `fetch_and_process` from the empty
accumulators (batch size zero included). -/
theorem matrix_ids_parallel :
    (∀ (lib : Lib) (st : PState) (i : ℕ) (item : BatchItem),
        st.all_data.length = st.all_ids.length →
        (stepItem lib st i item).all_data.length =
          (stepItem lib st i item).all_ids.length) ∧
    (∀ (lib : Lib) (st : PState) (items : List BatchItem),
        st.all_data.length = st.all_ids.length →
        (processBatch lib st items).all_data.length =
          (processBatch lib st items).all_ids.length) ∧
    (∀ (lib : Lib) (acq : Acq) (anchors : List String) (st : PState),
        st.all_data.length = st.all_ids.length →
        (fetchLoop lib acq anchors st).1.all_data.length =
          (fetchLoop lib acq anchors st).1.all_ids.length) ∧
    (∀ (lib : Lib) (acq : Acq),
        (fetch_and_process lib acq).1.all_data.length =
          (fetch_and_process lib acq).1.all_ids.length) :=
  ⟨stepItem_lengths, processBatch_lengths,
   fun lib acq anchors st h => fetchLoop_lengths lib acq anchors st h,
   fun lib acq => fetchLoop_lengths lib acq ANCHOR_STARS ⟨[], []⟩ rfl⟩

/-- Witness for C5 at concrete states, batches and loops. -/
theorem matrix_ids_parallel_witness :
    ((stepItem idLib ⟨[], []⟩ 0 ⟨some demoLC, some "TIC Z"⟩).all_data.length =
      (stepItem idLib ⟨[], []⟩ 0 ⟨some demoLC, some "TIC Z"⟩).all_ids.length) ∧
    ((processBatch idLib ⟨[], []⟩ []).all_data.length =
      (processBatch idLib ⟨[], []⟩ []).all_ids.length) ∧
    ((fetchLoop idLib demoAcq [] ⟨[], []⟩).1.all_data.length =
      (fetchLoop idLib demoAcq [] ⟨[], []⟩).1.all_ids.length) :=
  ⟨matrix_ids_parallel.1 idLib ⟨[], []⟩ 0 ⟨some demoLC, some "TIC Z"⟩ rfl,
   matrix_ids_parallel.2.1 idLib ⟨[], []⟩ [] rfl,
   matrix_ids_parallel.2.2.1 idLib demoAcq [] ⟨[], []⟩ rfl⟩

/-- C6: a zero-row feature matrix short-circuits the scoring stage: no
scoring call, no rendering action, zero reported candidates, and the run
returns normally. -/
theorem run_ai_scan_empty (scorer : Scorer) (ids : List String)
    (save_path : String) :
    run_ai_scan scorer [] ids save_path = ⟨0, 0, []⟩ := rfl

/-- C7 amended: reporting processes exactly the rows labeled anomalous,
sorted by score in ascending (non-decreasing) order — strictness can fail
when two anomalous rows carry equal scores — with rank the 1-based position
in that order, exactly one rendered artifact per anomaly in rank order, and
a single batch scoring call. -/
theorem run_ai_scan_report_order (scorer : Scorer) (X : List (List Val))
    (ids : List String) (save_path : String) (hX : X ≠ []) :
    ((run_ai_scan scorer X ids save_path).renders.map
        (fun r => (r.idx, r.score))).Perm (anomaliesOf (scorer.run X)) ∧
    List.Pairwise (fun a b : ℚ => a ≤ b)
      ((run_ai_scan scorer X ids save_path).renders.map RenderEvent.score) ∧
    (run_ai_scan scorer X ids save_path).detected =
      (anomaliesOf (scorer.run X)).length ∧
    (run_ai_scan scorer X ids save_path).renders.length =
      (anomaliesOf (scorer.run X)).length ∧
    (∀ k : ℕ, k < (run_ai_scan scorer X ids save_path).renders.length →
        ((run_ai_scan scorer X ids save_path).renders.getD k
            ⟨0, 0, "", 0, ""⟩).rank1 = k + 1) ∧
    (run_ai_scan scorer X ids save_path).scoreCalls = 1 := by
  have hne : ¬ X.length = 0 := by simpa using hX
  have hrun : run_ai_scan scorer X ids save_path =
      ⟨1, ((anomaliesOf (scorer.run X)).mergeSort scoreLe).length,
        ((anomaliesOf (scorer.run X)).mergeSort scoreLe).enum.map
          (renderOf ids save_path)⟩ := by
    simp only [run_ai_scan, if_neg hne]
  rw [hrun]
  refine ⟨?_, ?_, ?_, ?_, ?_, rfl⟩
  · rw [List.map_map]
    have hcomp :
        ((fun r : RenderEvent => (r.idx, r.score)) ∘ renderOf ids save_path) =
          Prod.snd := funext fun q => by simp [renderOf]
    rw [hcomp, List.enum_map_snd]
    exact List.mergeSort_perm _ _
  · rw [List.map_map]
    have hcomp : (RenderEvent.score ∘ renderOf ids save_path) =
        (fun x : ℕ × ℚ => x.2) ∘ Prod.snd := funext fun q => by simp [renderOf]
    rw [hcomp, ← List.map_map, List.enum_map_snd]
    refine List.pairwise_map.mpr ?_
    have hs := @List.sorted_mergeSort (ℕ × ℚ) scoreLe
      (fun a b c hab hbc => by
        simp only [scoreLe, decide_eq_true_eq] at *
        exact le_trans hab hbc)
      (fun a b => by simp [scoreLe, le_total])
      (anomaliesOf (scorer.run X))
    exact hs.imp (by simp [scoreLe])
  · simp
  · simp
  · intro k hk
    rw [List.getD_eq_getElem?_getD, List.getElem?_eq_getElem (by simpa using hk)]
    simp [renderOf, List.getElem_enum]

/-- A scoring collaborator marking both rows anomalous with equal scores. -/
def tieScorer : Scorer := ⟨fun _ => [(-1, 5), (-1, 5)]⟩

/-- C7 counterexample: with two anomalous rows of equal score the rendered
score sequence is `[5, 5]`, which is not strictly ascending, so the claimed
strict order fails on ties. -/
theorem run_ai_scan_tied_scores_counterexample :
    ((run_ai_scan tieScorer [[Val.num 1], [Val.num 1]] ["a", "b"] "out").renders.map
        RenderEvent.score = [5, 5]) ∧
    ¬ List.Pairwise (fun a b : ℚ => a < b)
        ((run_ai_scan tieScorer [[Val.num 1], [Val.num 1]] ["a", "b"] "out").renders.map
          RenderEvent.score) := by
  have hanom : anomaliesOf (tieScorer.run [[Val.num 1], [Val.num 1]]) =
      [(0, 5), (1, 5)] := by decide
  have hms : (anomaliesOf (tieScorer.run [[Val.num 1], [Val.num 1]])).mergeSort
      scoreLe = [(0, 5), (1, 5)] := by
    rw [hanom]
    exact List.mergeSort_of_sorted (by decide)
  have hscores : (run_ai_scan tieScorer [[Val.num 1], [Val.num 1]] ["a", "b"]
      "out").renders.map RenderEvent.score = [5, 5] := by
    norm_num [run_ai_scan, hms, renderOf, List.enum, List.enumFrom]
  exact ⟨hscores, by rw [hscores]; decide⟩

/-- Witness scorer for C7's amended statement: three rows, two anomalous with
distinct scores. -/
def demoScorer : Scorer := ⟨fun _ => [(-1, 2), (1, 0), (-1, 1)]⟩

/-- Witness for C7's amended statement at a concrete scorer and matrix. -/
theorem run_ai_scan_report_order_witness :
    ((run_ai_scan demoScorer [[Val.num 1], [Val.num 2], [Val.num 3]]
        ["a", "b", "c"] "out").renders.map (fun r => (r.idx, r.score))).Perm
      (anomaliesOf (demoScorer.run [[Val.num 1], [Val.num 2], [Val.num 3]])) ∧
    List.Pairwise (fun a b : ℚ => a ≤ b)
      ((run_ai_scan demoScorer [[Val.num 1], [Val.num 2], [Val.num 3]]
        ["a", "b", "c"] "out").renders.map RenderEvent.score) ∧
    (run_ai_scan demoScorer [[Val.num 1], [Val.num 2], [Val.num 3]]
        ["a", "b", "c"] "out").scoreCalls = 1 := by
  have h := run_ai_scan_report_order demoScorer
    [[Val.num 1], [Val.num 2], [Val.num 3]] ["a", "b", "c"] "out" (by decide)
  exact ⟨h.1, h.2.1, h.2.2.2.2.2⟩

/-- Configured constant `RESULTS_DIR` (main.py line 10). -/
def RESULTS_DIR : String := "results_blind_final"

/-- The decimal digit list of a natural number, most significant first: the
characterization of what `Nat.toDigitsCore 10` computes with enough fuel. -/
def decDigits (n : ℕ) : List Char :=
  if n < 10 then [Nat.digitChar n]
  else decDigits (n / 10) ++ [Nat.digitChar (n % 10)]
decreasing_by exact Nat.div_lt_self (by omega) (by norm_num)

/-- `toDigitsCore` threads its accumulator on the right. -/
theorem toDigitsCore_append (b : ℕ) :
    ∀ (fuel n : ℕ) (ds : List Char),
      Nat.toDigitsCore b fuel n ds = Nat.toDigitsCore b fuel n [] ++ ds := by
  intro fuel
  induction fuel with
  | zero => intro n ds; simp [Nat.toDigitsCore]
  | succ f ih =>
    intro n ds
    simp only [Nat.toDigitsCore]
    by_cases h : n / b = 0
    · simp [h]
    · simp only [if_neg h]
      rw [ih (n / b) (Nat.digitChar (n % b) :: ds),
        ih (n / b) [Nat.digitChar (n % b)]]
      simp

/-- With sufficient fuel, `toDigitsCore 10` computes `decDigits`. -/
theorem toDigitsCore_eq_decDigits :
    ∀ (n fuel : ℕ) (ds : List Char), n < fuel →
      Nat.toDigitsCore 10 fuel n ds = decDigits n ++ ds := by
  intro n
  induction n using Nat.strong_induction_on with
  | _ n ih =>
    intro fuel ds hf
    match fuel, hf with
    | f + 1, _ =>
      simp only [Nat.toDigitsCore]
      by_cases h : n / 10 = 0
      · have hn : n < 10 := by
          by_contra hge
          rw [Nat.div_eq_zero_iff (by norm_num)] at h
          omega
        rw [if_pos h, decDigits, if_pos hn, Nat.mod_eq_of_lt hn]
        simp
      · have h10 : 10 ≤ n := by
          by_contra hlt
          exact h (Nat.div_eq_of_lt (by omega))
        have hdiv_lt : n / 10 < n := Nat.div_lt_self (by omega) (by norm_num)
        rw [if_neg h,
          ih (n / 10) hdiv_lt f (Nat.digitChar (n % 10) :: ds) (by omega)]
        conv_rhs => rw [decDigits]
        rw [if_neg (by omega)]
        simp

/-- The character list underlying `Nat.repr` is `decDigits`. -/
theorem repr_data_eq (n : ℕ) : (Nat.repr n).data = decDigits n := by
  calc (Nat.repr n).data = Nat.toDigitsCore 10 (n + 1) n [] := rfl
  _ = decDigits n ++ [] := toDigitsCore_eq_decDigits n (n + 1) [] (Nat.lt_succ_self n)
  _ = decDigits n := List.append_nil _

/-- Decimal digit characters are never an underscore. -/
theorem digitChar_ne_underscore (k : ℕ) (hk : k < 10) :
    Nat.digitChar k ≠ '_' := by
  interval_cases k <;> decide

/-- The code of the decimal digit character of `k < 10` is `48 + k`. -/
theorem digitChar_toNat (k : ℕ) (hk : k < 10) :
    (Nat.digitChar k).toNat = 48 + k := by
  interval_cases k <;> decide

/-- No underscore occurs in a decimal numeral. -/
theorem decDigits_no_underscore : ∀ n : ℕ, '_' ∉ decDigits n := by
  intro n
  induction n using Nat.strong_induction_on with
  | _ n ih =>
    by_cases h : n < 10
    · rw [decDigits, if_pos h]
      simp only [List.mem_singleton]
      exact fun he => digitChar_ne_underscore n h he.symm
    · rw [decDigits, if_neg h]
      simp only [List.mem_append, List.mem_singleton]
      rintro (hmem | heq)
      · exact ih (n / 10) (Nat.div_lt_self (by omega) (by norm_num)) hmem
      · exact digitChar_ne_underscore (n % 10) (Nat.mod_lt _ (by norm_num)) heq.symm

/-- Folding the decimal digits back recovers the number (with accumulator). -/
theorem decDigits_foldl :
    ∀ (n acc : ℕ),
      (decDigits n).foldl (fun a c => 10 * a + (c.toNat - 48)) acc =
        acc * 10 ^ (decDigits n).length + n := by
  intro n
  induction n using Nat.strong_induction_on with
  | _ n ih =>
    intro acc
    by_cases h : n < 10
    · rw [decDigits, if_pos h]
      simp only [List.foldl_cons, List.foldl_nil, List.length_singleton,
        digitChar_toNat n h, pow_one]
      omega
    · rw [decDigits, if_neg h]
      rw [List.foldl_append,
        ih (n / 10) (Nat.div_lt_self (by omega) (by norm_num)) acc]
      simp only [List.foldl_cons, List.foldl_nil, List.length_append,
        List.length_singleton, digitChar_toNat (n % 10) (Nat.mod_lt _ (by norm_num))]
      rw [pow_succ, ← mul_assoc]
      generalize acc * 10 ^ (decDigits (n / 10)).length = C
      omega

/-- Distinct numbers have distinct decimal digit lists. -/
theorem decDigits_injective : Function.Injective decDigits := by
  intro m n h
  have hm := decDigits_foldl m 0
  have hn := decDigits_foldl n 0
  rw [h] at hm
  simp only [Nat.zero_mul, Nat.zero_add] at hm hn
  omega

/-- `Nat.repr` is injective at the character-list level. -/
theorem repr_data_injective {m n : ℕ}
    (h : (Nat.repr m).data = (Nat.repr n).data) : m = n :=
  decDigits_injective (by rwa [repr_data_eq, repr_data_eq] at h)

/-- An underscore delimiter after an underscore-free segment parses
unambiguously. -/
theorem append_underscore_inj :
    ∀ (a b u v : List Char), '_' ∉ a → '_' ∉ b →
      a ++ '_' :: u = b ++ '_' :: v → a = b ∧ u = v := by
  intro a
  induction a with
  | nil =>
    intro b u v _ hb h
    cases b with
    | nil => simpa using h
    | cons d b' =>
      simp only [List.nil_append, List.cons_append, List.cons.injEq] at h
      exact absurd (h.1 ▸ List.mem_cons_self d b') hb
  | cons c a' ih =>
    intro b u v ha hb h
    cases b with
    | nil =>
      simp only [List.cons_append, List.nil_append, List.cons.injEq] at h
      exact absurd (h.1 ▸ List.mem_cons_self c a') ha
    | cons d b' =>
      simp only [List.cons_append, List.cons.injEq] at h
      obtain ⟨hcd, htail⟩ := h
      have ha' : '_' ∉ a' := fun hm => ha (List.mem_cons_of_mem _ hm)
      have hb' : '_' ∉ b' := fun hm => hb (List.mem_cons_of_mem _ hm)
      obtain ⟨he, hu⟩ := ih b' u v ha' hb' htail
      exact ⟨by rw [hcd, he], hu⟩

/-- Artifact names are injective in (rank, identifier) for all ranks: the
decimal rank numeral is followed by an underscore and contains none itself,
so equal names force equal numerals (hence equal ranks) and equal
identifiers. -/
theorem artifactName_inj (r1 r2 : ℕ) (sid1 sid2 : String)
    (h : artifactName r1 sid1 = artifactName r2 sid2) :
    r1 = r2 ∧ sid1 = sid2 := by
  have hd : (artifactName r1 sid1).data = (artifactName r2 sid2).data :=
    congrArg String.data h
  simp only [artifactName, String.data_append, List.append_assoc] at hd
  have hd2 := List.append_cancel_left hd
  simp only [List.singleton_append] at hd2
  have hrepr : (Nat.repr r1).data ++ '_' :: (sid1.data ++ (".png" : String).data) =
      (Nat.repr r2).data ++ '_' :: (sid2.data ++ (".png" : String).data) := hd2
  obtain ⟨h1, h2⟩ := append_underscore_inj _ _ _ _
    (by rw [repr_data_eq]; exact decDigits_no_underscore r1)
    (by rw [repr_data_eq]; exact decDigits_no_underscore r2) hrepr
  refine ⟨repr_data_injective h1, ?_⟩
  have hsid : sid1.data = sid2.data := List.append_cancel_right h2
  exact String.toList_inj.mp hsid

/-- Single-digit ranks prefix-sort correctly: the two artifact names share
the prefix `RANK_` and first differ at the rank digit. -/
theorem artifactName_lt_single_digit (r1 r2 : ℕ) (sid : String)
    (h1 : 1 ≤ r1) (h2 : r1 < r2) (h3 : r2 ≤ 9) :
    artifactName r1 sid < artifactName r2 sid := by
  have h4 : r1 ≤ 8 := by omega
  interval_cases r1 <;> interval_cases r2 <;>
    (rw [String.lt_iff_toList_lt]
     exact List.Lex.cons (List.Lex.cons (List.Lex.cons (List.Lex.cons
       (List.Lex.cons (List.Lex.rel (by decide)))))))

/-- C8 counterexample: sanitization replaces only spaces, so the unsafe
character `/` survives into the artifact name; and because the rank prefix is
not zero-padded, the rank-10 artifact name sorts before the rank-2 one, so
filename sort order does not preserve rank order. -/
theorem artifact_naming_counterexample :
    sanitize "TIC 1/2" = "TIC_1/2" ∧
    '/' ∈ (sanitize "TIC 1/2").data ∧
    artifactName 10 "A" < artifactName 2 "A" ∧
    joinPath RESULTS_DIR (artifactName 10 "A") <
      joinPath RESULTS_DIR (artifactName 2 "A") := by
  refine ⟨by decide, by decide, ?_, ?_⟩
  · rw [String.lt_iff_toList_lt]; decide
  · rw [String.lt_iff_toList_lt]; decide

/-- C8 amended: artifact names are deterministic functions of rank and
identifier; sanitization replaces exactly the spaces with underscores (other
characters, including filesystem-unsafe ones, pass through); names are
collision-resistant for all ranks — distinct (rank, identifier) pairs, in
particular distinct ranks of any magnitude, give distinct names, so re-runs
overwrite — while lexicographic name order agrees with rank order only for
single-digit ranks (the unpadded rank prefix breaks it at rank 10). -/
theorem artifact_naming_amended :
    (∀ (s : String), ∀ c ∈ (sanitize s).data, c ≠ ' ') ∧
    (∀ (s : String), ∀ c ∈ (sanitize s).data, c = '_' ∨ c ∈ s.data) ∧
    (∀ (r1 r2 : ℕ) (sid1 sid2 : String),
        artifactName r1 sid1 = artifactName r2 sid2 → r1 = r2 ∧ sid1 = sid2) ∧
    (∀ (r1 r2 : ℕ) (sid : String), r1 ≠ r2 →
        artifactName r1 sid ≠ artifactName r2 sid) ∧
    (∀ (r1 r2 : ℕ) (sid : String), 1 ≤ r1 → r1 < r2 → r2 ≤ 9 →
        artifactName r1 sid < artifactName r2 sid) := by
  refine ⟨?_, ?_,
    fun r1 r2 sid1 sid2 h => artifactName_inj r1 r2 sid1 sid2 h,
    fun r1 r2 sid hne h => hne (artifactName_inj r1 r2 sid sid h).1,
    fun r1 r2 sid h1 h2 h3 => artifactName_lt_single_digit r1 r2 sid h1 h2 h3⟩
  · intro s c hc
    simp only [sanitize] at hc
    rcases List.mem_map.mp hc with ⟨d, hd, rfl⟩
    by_cases h : d = ' ' <;> simp [h]
  · intro s c hc
    simp only [sanitize] at hc
    rcases List.mem_map.mp hc with ⟨d, hd, rfl⟩
    by_cases h : d = ' '
    · simp [h]
    · simp only [if_neg h]
      exact Or.inr hd

/-- Witness for C8's amended statement at concrete characters and ranks,
including a double-digit rank for the collision-resistance conjunct. -/
theorem artifact_naming_amended_witness :
    ('C' ≠ ' ') ∧ ('C' = '_' ∨ 'C' ∈ ("TIC 9" : String).data) ∧
    (3 = 3 ∧ ("A*b" : String) = "A*b") ∧
    artifactName 2 "TIC_9" ≠ artifactName 12 "TIC_9" ∧
    artifactName 1 "TIC_9" < artifactName 4 "TIC_9" :=
  ⟨artifact_naming_amended.1 "TIC 9" 'C' (by decide),
   artifact_naming_amended.2.1 "TIC 9" 'C' (by decide),
   artifact_naming_amended.2.2.1 3 3 "A*b" "A*b" rfl,
   artifact_naming_amended.2.2.2.1 2 12 "TIC_9" (by decide),
   artifact_naming_amended.2.2.2.2 1 4 "TIC_9" (by decide) (by decide) (by decide)⟩

/-- C9: the anchor loop returns unchanged on an exhausted list; breaks before
querying once the target is reached; queries each visited anchor with exactly
the still-needed count; skips to the next anchor on an empty batch and on a
query error, and otherwise processes the batch and continues; and the visited
anchors are a prefix of `ANCHOR_STARS`-style source order. -/
theorem fetchLoop_policy (lib : Lib) (acq : Acq) :
    (∀ st : PState, fetchLoop lib acq [] st = (st, [])) ∧
    (∀ (a : String) (rest : List String) (st : PState),
        TARGET_TOTAL_STARS ≤ st.all_data.length →
        fetchLoop lib acq (a :: rest) st = (st, [])) ∧
    (∀ (a : String) (rest : List String) (st : PState),
        st.all_data.length < TARGET_TOTAL_STARS →
        acq.query a (TARGET_TOTAL_STARS - st.all_data.length) = .ok [] →
        fetchLoop lib acq (a :: rest) st =
          ((fetchLoop lib acq rest st).1,
            (a, TARGET_TOTAL_STARS - st.all_data.length) ::
              (fetchLoop lib acq rest st).2)) ∧
    (∀ (a : String) (rest : List String) (st : PState) (e : String),
        st.all_data.length < TARGET_TOTAL_STARS →
        acq.query a (TARGET_TOTAL_STARS - st.all_data.length) = .error e →
        fetchLoop lib acq (a :: rest) st =
          ((fetchLoop lib acq rest st).1,
            (a, TARGET_TOTAL_STARS - st.all_data.length) ::
              (fetchLoop lib acq rest st).2)) ∧
    (∀ (a : String) (rest : List String) (st : PState) (items : List BatchItem),
        st.all_data.length < TARGET_TOTAL_STARS →
        acq.query a (TARGET_TOTAL_STARS - st.all_data.length) = .ok items →
        fetchLoop lib acq (a :: rest) st =
          ((fetchLoop lib acq rest (processBatch lib st items)).1,
            (a, TARGET_TOTAL_STARS - st.all_data.length) ::
              (fetchLoop lib acq rest (processBatch lib st items)).2)) ∧
    (∀ (anchors : List String) (st : PState), ∃ tail : List String,
        (fetchLoop lib acq anchors st).2.map Prod.fst ++ tail = anchors) := by
  refine ⟨fun st => rfl, ?_, ?_, ?_, ?_, ?_⟩
  · intro a rest st h
    simp only [fetchLoop, if_pos h]
  · intro a rest st h hq
    have hPB : processBatch lib st [] = st := rfl
    simp only [fetchLoop, if_neg (Nat.not_le.mpr h), hq, hPB]
  · intro a rest st e h hq
    simp only [fetchLoop, if_neg (Nat.not_le.mpr h), hq]
  · intro a rest st items h hq
    simp only [fetchLoop, if_neg (Nat.not_le.mpr h), hq]
  · intro anchors
    induction anchors with
    | nil => intro st; exact ⟨[], by simp [fetchLoop]⟩
    | cons a rest ih =>
      intro st
      by_cases hc : TARGET_TOTAL_STARS ≤ st.all_data.length
      · exact ⟨a :: rest, by simp [fetchLoop, if_pos hc]⟩
      · simp only [fetchLoop, if_neg hc]
        cases hq : acq.query a (TARGET_TOTAL_STARS - st.all_data.length) with
        | error e =>
          obtain ⟨tail, htail⟩ := ih st
          exact ⟨tail, by simp [hq, htail]⟩
        | ok items =>
          obtain ⟨tail, htail⟩ := ih (processBatch lib st items)
          exact ⟨tail, by simp [hq, htail]⟩

/-- A state already holding `TARGET_TOTAL_STARS` vectors. -/
def stBig : PState := ⟨List.replicate 500 [], []⟩

/-- An acquisition collaborator whose queries find nothing. -/
def emptyAcq : Acq := ⟨fun _ _ => .ok []⟩

/-- An acquisition collaborator whose queries raise. -/
def failAcq : Acq := ⟨fun _ _ => .error "HTTPError"⟩

set_option maxRecDepth 4000 in
/-- Witness for C9 at concrete anchors, states and collaborators. -/
theorem fetchLoop_policy_witness :
    fetchLoop idLib demoAcq ["TIC A"] stBig = (stBig, []) ∧
    fetchLoop idLib emptyAcq ["TIC A"] ⟨[], []⟩ =
      ((fetchLoop idLib emptyAcq [] (⟨[], []⟩ : PState)).1,
        ("TIC A", TARGET_TOTAL_STARS - (⟨[], []⟩ : PState).all_data.length) ::
          (fetchLoop idLib emptyAcq [] (⟨[], []⟩ : PState)).2) ∧
    fetchLoop idLib failAcq ["TIC A"] ⟨[], []⟩ =
      ((fetchLoop idLib failAcq [] (⟨[], []⟩ : PState)).1,
        ("TIC A", TARGET_TOTAL_STARS - (⟨[], []⟩ : PState).all_data.length) ::
          (fetchLoop idLib failAcq [] (⟨[], []⟩ : PState)).2) ∧
    fetchLoop idLib demoAcq ["TIC A"] ⟨[], []⟩ =
      ((fetchLoop idLib demoAcq []
          (processBatch idLib ⟨[], []⟩ [⟨some demoLC, none⟩])).1,
        ("TIC A", TARGET_TOTAL_STARS - (⟨[], []⟩ : PState).all_data.length) ::
          (fetchLoop idLib demoAcq []
            (processBatch idLib ⟨[], []⟩ [⟨some demoLC, none⟩])).2) :=
  ⟨(fetchLoop_policy idLib demoAcq).2.1 "TIC A" [] stBig (by simp [stBig, TARGET_TOTAL_STARS]),
   (fetchLoop_policy idLib emptyAcq).2.2.1 "TIC A" [] ⟨[], []⟩ (by decide) rfl,
   (fetchLoop_policy idLib failAcq).2.2.2.1 "TIC A" [] ⟨[], []⟩ "HTTPError"
     (by decide) rfl,
   (fetchLoop_policy idLib demoAcq).2.2.2.2.1 "TIC A" [] ⟨[], []⟩
     [⟨some demoLC, none⟩] (by decide) rfl⟩

/-- C10: a failed target-name lookup never drops the series: the identifier
falls back to `Star_{i}` with `i` the index within the batch, and a concrete
three-anchor run shows the resulting identifier list can repeat the
synthesized name across batches (non-unique identifiers). -/
theorem star_fallback_identifier :
    (∀ (lib : Lib) (i : ℕ) (lc : LC) (flux : List Val),
        conditionLC lib lc = .ok flux →
        processItem lib i ⟨some lc, none⟩ = some (flux, fallbackName i)) ∧
    (fetch_and_process idLib demoAcq).1.all_ids =
      ["Star_0", "Star_0", "Star_0"] ∧
    ¬ (fetch_and_process idLib demoAcq).1.all_ids.Nodup := by
  have hitem : ∀ (lib : Lib) (i : ℕ) (lc : LC) (flux : List Val),
      conditionLC lib lc = .ok flux →
      processItem lib i ⟨some lc, none⟩ = some (flux, fallbackName i) := by
    intro lib i lc flux h
    simp [processItem, h]
  have hp : ∀ i : ℕ, processItem idLib i ⟨some demoLC, none⟩ =
      some (List.replicate 500 (Val.num 1), fallbackName i) :=
    fun i => hitem idLib i demoLC _ conditionLC_demo
  have hids : (fetch_and_process idLib demoAcq).1.all_ids =
      ["Star_0", "Star_0", "Star_0"] := by
    norm_num [fetch_and_process, ANCHOR_STARS, fetchLoop, TARGET_TOTAL_STARS,
      demoAcq, processBatch, List.enum, List.enumFrom, stepItem, hp]
    decide
  exact ⟨hitem, hids, by rw [hids]; decide⟩

/-- Witness for C10's fallback-name conclusion at a concrete index. -/
theorem star_fallback_identifier_witness :
    processItem idLib 7 ⟨some demoLC, none⟩ =
      some (List.replicate 500 (Val.num 1), fallbackName 7) :=
  star_fallback_identifier.1 idLib 7 demoLC _ conditionLC_demo

end ProjectAegis
